import Mathlib

/-!
# PostNord Event Tracker — verification of the event store core

A shallow embedding of the repository's core: the shipment-event data
model (`src/models`), the pure validators (`src/validators/event.validator.ts`),
the DynamoDB-backed event store (`src/services/aws.dynamo.service.ts`),
the response envelope (`src/utils/response.ts`), and the three Lambda
handlers (`recordEvent`, `getLatestEvent`, `getEventHistory`).

Modelling conventions:
* ISO-8601 timestamp strings are represented by their parsed value in
  milliseconds since the epoch (an `Int`, the result of the JavaScript
  `new Date(s).getTime()`); an unparseable string (`Invalid Date`, whose
  time value is `NaN` and compares false against everything) is `none`
  in `Option Int`.
* `uuidv4()` and `new Date()` calls are modelled as explicitly passed-in
  values; freshness of generated uuids becomes a distinctness hypothesis.
* The DynamoDB `Query` operation is modelled faithfully to its documented
  semantics: the key condition selects the partition in ascending
  sort-key order, `ExclusiveStartKey` positions strictly after the given
  key, `Limit` caps the number of items *read* (it applies before any
  `FilterExpression`), `LastEvaluatedKey` is returned exactly when the
  read stopped at `Limit`, and the filter expression is applied to the
  already-read page.
-/

/-! ## Data model — `src/models/shipment.ts` and `src/models/event.ts` -/

/-- The closed 10-value status enumeration `ShipmentStatus`. -/
inductive ShipmentStatus where
  | created
  | picked_up
  | in_transit
  | out_for_delivery
  | delivered
  | attempted_delivery
  | exception
  | returned
  | cancelled
  | on_hold
deriving DecidableEq, Repr

/-- `SHIPMENT_STATUS_DESCRIPTIONS`: the immutable status → description map,
total over the enum by construction. -/
def SHIPMENT_STATUS_DESCRIPTIONS : ShipmentStatus → String
  | .created => "Shipment has been created and registered in the system"
  | .picked_up => "Package has been picked up from sender"
  | .in_transit => "Package is in transit between facilities"
  | .out_for_delivery => "Package is out for delivery to recipient"
  | .delivered => "Package has been successfully delivered"
  | .attempted_delivery => "Delivery was attempted but unsuccessful"
  | .exception => "An exception occurred during processing"
  | .returned => "Package is being returned to sender"
  | .cancelled => "Shipment has been cancelled"
  | .on_hold => "Shipment is temporarily on hold"

/-- `ShipmentEvent` (`src/models/event.ts`).  `timestamp` and `createdAt`
hold the parsed millisecond value of the ISO strings (see module note). -/
structure ShipmentEvent where
  id : String
  shipmentId : String
  timestamp : Int
  status : ShipmentStatus
  location : Option String
  details : Option String
  createdAt : Int
deriving DecidableEq, Repr

/-- `CreateEventRequest`: the shape of a write request body after the zod
`CreateEventSchema` has established that `timestamp` is a parseable
ISO-8601 string (represented by its parsed value) and `status` is an
enum member. -/
structure CreateEventRequest where
  timestamp : Int
  status : ShipmentStatus
  location : Option String
  details : Option String
deriving DecidableEq, Repr

/-- `GetEventsQuery` (`src/models/event.ts`): the validated query params. -/
structure GetEventsQuery where
  limit : Int
  startKey : Option String
deriving DecidableEq, Repr

/-! ## Validators — `src/validators/event.validator.ts` -/

/-- One character class of `/^[A-Z].../`: an uppercase ASCII letter. -/
def isUpperC (c : Char) : Bool := 'A' ≤ c && c ≤ 'Z'

/-- The `\d` character class: an ASCII digit. -/
def isDigitC (c : Char) : Bool := '0' ≤ c && c ≤ '9'

/-- A character matched by `[A-Z0-9-_]` under the `/i` flag. -/
def isGenericC (c : Char) : Bool :=
  isUpperC c || isDigitC c || c == '-' || c == '_' || ('a' ≤ c && c ≤ 'z')

/-- Matcher for `SHIPMENT_ID_PATTERNS[0]`, the regex
`/^[A-Z]\x7b2\x7d\d\x7b9\x7d[A-Z]\x7b2\x7d$/` (UPU shape): exactly two
uppercase letters, nine digits, two uppercase letters. -/
def matchUPU (cs : List Char) : Bool :=
  cs.length == 13 && (cs.take 2).all isUpperC &&
    ((cs.drop 2).take 9).all isDigitC && (cs.drop 11).all isUpperC

/-- If `pre` is a leading segment of `s`, return the remainder (used to
model matching a literal part of a regex, and later a literal part of a
JSON document). -/
def matchLead (pre s : List Char) : Option (List Char) :=
  match pre, s with
  | [], rest => some rest
  | p :: ps, c :: cs => if p = c then matchLead ps cs else none
  | _ :: _, [] => none

/-- Matcher for `SHIPMENT_ID_PATTERNS[1]`, the regex
`/^SHIP-\d\x7b6,12\x7d$/`: the literal `SHIP-` followed by 6 to 12
digits. -/
def matchPrefixed (cs : List Char) : Bool :=
  match matchLead "SHIP-".data cs with
  | some rest => rest.all isDigitC && 6 ≤ rest.length && rest.length ≤ 12
  | none => false

/-- Matcher for `SHIPMENT_ID_PATTERNS[2]`, the regex
`/^[A-Z0-9-_]\x7b5,50\x7d$/i`: 5 to 50 characters from the
case-insensitive class. -/
def matchGeneric (cs : List Char) : Bool :=
  5 ≤ cs.length && cs.length ≤ 50 && cs.all isGenericC

/-- `validateShipmentIdFormat`: true iff some pattern in
`SHIPMENT_ID_PATTERNS` matches. -/
def validateShipmentIdFormat (shipmentId : String) : Bool :=
  matchUPU shipmentId.data || matchPrefixed shipmentId.data ||
    matchGeneric shipmentId.data

/-- `validateEventTimestamp` on an already-parsed time value `t` and the
current time `now`: `eventTime <= now + 5min && eventTime >= now - 365d`
(both in milliseconds). -/
def validateEventTimestampV (t now : Int) : Bool :=
  t ≤ now + 5 * 60 * 1000 && now - 365 * 24 * 60 * 60 * 1000 ≤ t

/-- `validateEventTimestamp` on the result of `new Date(timestamp)`:
`none` models an `Invalid Date`, for which both JavaScript comparisons
evaluate to false (`NaN` compares false), so the function returns false. -/
def validateEventTimestamp (parsed : Option Int) (now : Int) : Bool :=
  match parsed with
  | none => false
  | some t => validateEventTimestampV t now

/-- `ShipmentEventParamsSchema`: `z.string().min(1).max(50)` refined by
`validateShipmentIdFormat`. -/
def shipmentIdValid (sid : String) : Bool :=
  1 ≤ sid.length && sid.length ≤ 50 && validateShipmentIdFormat sid

/-- The path-parameter parse: `none` models a missing/null `shipmentId`
path parameter (which fails the object schema). -/
def parseParams (pathShipmentId : Option String) : Option String :=
  match pathShipmentId with
  | some sid => if shipmentIdValid sid then some sid else none
  | none => none

/-- The body schema checks not already captured by the types of
`CreateEventRequest`: `location` at most 200 characters and `details`
at most 500 characters. -/
def createEventSchemaOk (req : CreateEventRequest) : Bool :=
  (req.location.getD "").length ≤ 200 && (req.details.getD "").length ≤ 500

/-- Whitespace skipped by JavaScript `parseInt`. -/
def isJsSpace (c : Char) : Bool :=
  c == ' ' || c == '\t' || c == '\n' || c == '\r'

/-- Numeric value of a digit run. -/
def digitsVal (cs : List Char) : Nat :=
  cs.foldl (fun a c => a * 10 + (c.toNat - '0'.toNat)) 0

/-- JavaScript `parseInt(s, 10)`: skip leading whitespace, read an
optional sign, then the longest leading digit run; `NaN` (here `none`)
when that run is empty. -/
def jsParseInt (s : String) : Option Int :=
  let cs := s.data.dropWhile isJsSpace
  let signed : Int × List Char :=
    match cs with
    | '-' :: r => (-1, r)
    | '+' :: r => (1, r)
    | r => (1, r)
  let ds := signed.2.takeWhile isDigitC
  if ds.isEmpty then none else some (signed.1 * (digitsVal ds : Int))

/-- `GetEventsQuerySchema`: `limit` is an optional string transformed by
`val ? parseInt(val, 10) : 50` (so a missing *or empty* string becomes
the default 50) and then refined to lie in `[1, 100]`; `NaN` fails the
refinement because both `NaN` comparisons are false.  `startKey` is an
optional string passed through unvalidated.  Errors are rendered by the
handler as `path: message`. -/
def validateQuery (limit startKey : Option String) :
    Except (List String) GetEventsQuery :=
  let transformed : Option Int :=
    match limit with
    | none => some 50
    | some s => if s = "" then some 50 else jsParseInt s
  match transformed with
  | some v =>
      if 1 ≤ v ∧ v ≤ 100 then .ok ⟨v, startKey⟩
      else .error ["limit: Limit must be between 1 and 100"]
  | none => .error ["limit: Limit must be between 1 and 100"]

/-! ## DynamoDB query model -/

/-- Lexicographic order on char lists: the order DynamoDB uses for
string sort keys (these keys are ASCII, where byte order and char order
coincide). -/
def charsLt : List Char → List Char → Bool
  | [], [] => false
  | [], _ :: _ => true
  | _ :: _, [] => false
  | a :: as, b :: bs => if a = b then charsLt as bs else a < b

/-- String order on DynamoDB sort keys. -/
def strLt (a b : String) : Bool := charsLt a.data b.data

/-- Stable insertion into a list ordered by the strict comparison `lt`:
the new element goes before the first element not strictly below it. -/
def insertSorted (lt : α → α → Bool) (x : α) : List α → List α
  | [] => [x]
  | y :: ys => if lt y x then y :: insertSorted lt x ys else x :: y :: ys

/-- Stable sort by the strict comparison `lt` (JavaScript
`Array.prototype.sort` with a consistent comparator is stable; this
insertion sort has the same behaviour). -/
def sortByLt (lt : α → α → Bool) : List α → List α
  | [] => []
  | x :: xs => insertSorted lt x (sortByLt lt xs)

/-- The `shipmentId`/`id` pair DynamoDB reports as `LastEvaluatedKey`
and accepts as `ExclusiveStartKey` (the table's HASH and RANGE keys). -/
structure DynKey where
  shipmentId : String
  id : String
deriving DecidableEq, Repr

/-- A DynamoDB `Query` against the `shipment-events` table with key
condition `shipmentId = :shipmentId`: the partition's items in ascending
`id` (RANGE key) order, positioned strictly after `startAfter` when an
`ExclusiveStartKey` is given, with at most `limit` items read.  Returns
the read page (before any filter) and the `LastEvaluatedKey`, present
exactly when the read stopped because `Limit` was reached. -/
def dynQueryPage (store : List ShipmentEvent) (sid : String) (limit : Nat)
    (startAfter : Option DynKey) :
    List ShipmentEvent × Option DynKey :=
  let part := sortByLt (fun a b => strLt a.id b.id)
    (store.filter (fun e => e.shipmentId = sid))
  let positioned :=
    match startAfter with
    | none => part
    | some k => part.filter (fun e => strLt k.id e.id)
  let page := positioned.take limit
  let lek : Option DynKey :=
    if page.length = limit ∧ page ≠ [] then
      (page.getLast?).map (fun e => ⟨e.shipmentId, e.id⟩)
    else none
  (page, lek)

/-- A `Query` whose results are additionally passed through a
`FilterExpression`: the filter applies to the page *after* `Limit`
capped the read. -/
def dynQueryFiltered (store : List ShipmentEvent) (sid : String)
    (limit : Nat) (startAfter : Option DynKey)
    (filter : ShipmentEvent → Bool) :
    List ShipmentEvent × Option DynKey :=
  let r := dynQueryPage store sid limit startAfter
  (r.1.filter filter, r.2)

/-! ## Pagination cursor codec

`nextKey = Buffer.from(JSON.stringify(LastEvaluatedKey)).toString('base64')`
and `ExclusiveStartKey = JSON.parse(Buffer.from(startKey, 'base64').toString())`.
-/

/-- The base64 alphabet. -/
def b64chars : List Char :=
  "ABCDEFGHIJKLMNOPQRSTUVWXYZabcdefghijklmnopqrstuvwxyz0123456789+/".data

/-- The alphabet character for a 6-bit value. -/
def b64char (n : Nat) : Char := b64chars.getD n '?'

/-- The 6-bit value of an alphabet character. -/
def b64index (c : Char) : Option Nat := b64chars.findIdx? (· = c)

/-- RFC 4648 base64 encoding of a byte sequence (bytes as `Nat < 256`),
with `=` padding — the encoding `Buffer.toString('base64')` produces. -/
def b64encode : List Nat → List Char
  | [] => []
  | [a] => [b64char (a / 4), b64char (a % 4 * 16), '=', '=']
  | [a, b] => [b64char (a / 4), b64char (a % 4 * 16 + b / 16), b64char (b % 16 * 4), '=']
  | a :: b :: c :: rest =>
      b64char (a / 4) :: b64char (a % 4 * 16 + b / 16) ::
        b64char (b % 16 * 4 + c / 64) :: b64char (c % 64) :: b64encode rest

/-- Base64 decoding (inverse of `b64encode`; inputs that are not valid
encodings yield `none`, which the service surfaces as the thrown-error
path of `Buffer.from`/`JSON.parse`). -/
def b64decode : List Char → Option (List Nat)
  | [] => some []
  | w :: x :: y :: z :: rest =>
      match b64index w, b64index x with
      | some a, some b =>
          if y = '=' then
            if z = '=' ∧ rest = [] then some [a * 4 + b / 16] else none
          else
            match b64index y with
            | some c =>
                if z = '=' then
                  if rest = [] then some [a * 4 + b / 16, b % 16 * 16 + c / 4]
                  else none
                else
                  match b64index z with
                  | some d =>
                      (b64decode rest).map (fun t =>
                        (a * 4 + b / 16) :: (b % 16 * 16 + c / 4) ::
                          (c % 4 * 64 + d) :: t)
                  | none => none
            | none => none
      | _, _ => none
  | _ => none

/-- The characters of `JSON.stringify` applied to a `LastEvaluatedKey`
object with its two string attributes (no escaping occurs for the
ASCII, quote-free strings the store produces). -/
def jsonKeyChars (k : DynKey) : List Char :=
  "\x7b\"shipmentId\":\"".data ++ k.shipmentId.data ++
    "\",\"id\":\"".data ++ k.id.data ++ "\"\x7d".data

/-- Consume a JSON string body up to its closing quote (the produced
keys contain no escapes, so a backslash is rejected). -/
def parseQuoted : List Char → Option (List Char × List Char)
  | [] => none
  | c :: rest =>
      if c = '"' then some ([], rest)
      else if c = '\\' then none
      else (parseQuoted rest).map (fun p => (c :: p.1, p.2))

/-- `JSON.parse` restricted to the exact document shape `jsonKeyChars`
produces. -/
def jsonParseKey (cs : List Char) : Option DynKey := do
  let r1 ← matchLead "\x7b\"shipmentId\":\"".data cs
  let (sid, r2) ← parseQuoted r1
  let r3 ← matchLead ",\"id\":\"".data r2
  let (idv, r4) ← parseQuoted r3
  match r4 with
  | ['\x7d'] => some ⟨String.mk sid, String.mk idv⟩
  | _ => none

/-- `Buffer.from(JSON.stringify(key)).toString('base64')` for the ASCII
strings at hand (UTF-8 bytes of ASCII characters are their code points). -/
def encodeCursor (k : DynKey) : String :=
  String.mk (b64encode ((jsonKeyChars k).map Char.toNat))

/-- `JSON.parse(Buffer.from(startKey, 'base64').toString())`: decode the
base64, read the bytes back as characters (ASCII), parse the JSON key
shape; any failure models the thrown exception. -/
def decodeCursor (s : String) : Option DynKey := do
  let bs ← b64decode s.data
  if bs.all (· < 128) then jsonParseKey (bs.map Char.ofNat) else none

/-! ## Event store services — `src/services/aws.dynamo.service.ts` -/

/-- `shippmentEventExist(shipmentId, status, timestamp)`: a `Query` with
`Limit: 1` and the filter `#status = :status AND #timestamp = :timestamp`;
`exists` is `(result.Items?.length || 0) > 0` and `existingEvent` is
`result.Items?.[0]`. -/
def shippmentEventExist (store : List ShipmentEvent) (shipmentId : String)
    (status : ShipmentStatus) (timestamp : Int) :
    Bool × Option ShipmentEvent :=
  let items :=
    (dynQueryFiltered store shipmentId 1 none
      (fun e => e.status = status ∧ e.timestamp = timestamp)).1
  (items.length > 0, items.head?)

/-- `createEvent(shipmentId, eventData)`: builds the item that is
actually persisted.  Note that it assigns a fresh `uuidv4()` of its own
(`freshId`, ignoring any id in `eventData`) and its own
`new Date().toISOString()` as `createdAt`; `timestamp` falls back to the
current time via `eventData.timestamp || ...` only when absent, and the
handler always supplies it, so it is taken from `eventData` here.
Returns the built item and the store with it appended (the `PutCommand`
persists it under `(shipmentId, id)`). -/
def createEvent (store : List ShipmentEvent) (shipmentId : String)
    (eventData : ShipmentEvent) (freshId : String) (now : Int) :
    ShipmentEvent × List ShipmentEvent :=
  let event : ShipmentEvent :=
    { id := freshId
      shipmentId := shipmentId
      timestamp := eventData.timestamp
      status := eventData.status
      location := eventData.location
      details := eventData.details
      createdAt := now }
  (event, store ++ [event])

/-- `getLatestEvent(shipmentId)`: a `Query` with `Limit: 1` and no
filter; the returned items are sorted by timestamp descending and the
first is returned (`null`, here `none`, when there are none). -/
def getLatestEvent (store : List ShipmentEvent) (shipmentId : String) :
    Option ShipmentEvent :=
  let items := (dynQueryPage store shipmentId 1 none).1
  let sorted := sortByLt (fun a b => b.timestamp < a.timestamp) items
  sorted.head?

/-- The `ExclusiveStartKey` computed from the caller's `startKey`:
`...(startKey && \x7b ExclusiveStartKey: JSON.parse(...) \x7d)` — a missing
*or empty* `startKey` contributes no key; an undecodable one throws
(`.error`). -/
def exclusiveStartKeyOf (startKey : Option String) :
    Except String (Option DynKey) :=
  match startKey with
  | none => .ok none
  | some s =>
      if s = "" then .ok none
      else
        match decodeCursor s with
        | some k => .ok (some k)
        | none => .error "SyntaxError"

/-- `getEventHistory(shipmentId, limit, startKey)`: query the partition
(no filter), sort the returned page by timestamp ascending (oldest
first), `hasMore = !!LastEvaluatedKey`, and `nextKey` is the
base64-of-JSON encoding of the `LastEvaluatedKey` when present. -/
def getEventHistoryService (store : List ShipmentEvent) (shipmentId : String)
    (limit : Nat) (startKey : Option String) :
    Except String (List ShipmentEvent × Bool × Option String) :=
  match exclusiveStartKeyOf startKey with
  | .error e => .error e
  | .ok esk =>
      let r := dynQueryPage store shipmentId limit esk
      let sortedEvents := sortByLt (fun a b => a.timestamp < b.timestamp) r.1
      .ok (sortedEvents, r.2.isSome, r.2.map encodeCursor)

/-! ## Response envelope — `src/utils/response.ts` -/

/-- The `pagination` block of a `PaginatedResponse`. -/
structure Pagination where
  hasMore : Bool
  nextKey : Option String
deriving DecidableEq, Repr

/-- An `APIGatewayProxyResult` whose JSON body follows the
`APIResponse`/`PaginatedResponse` envelope; `none` models an absent
optional field (the envelope spreads `...(x && \x7b x \x7d)`). -/
structure Http (α : Type) where
  statusCode : Nat
  success : Bool
  data : Option α
  pagination : Option Pagination
  error : Option String
  message : Option String
deriving DecidableEq, Repr

/-- `successResponse(data, message?, statusCode = 200)`. -/
def successResponse (data : α) (message : Option String)
    (statusCode : Nat := 200) : Http α :=
  { statusCode := statusCode
    success := true
    data := some data
    pagination := none
    error := none
    message := match message with
      | some m => if m = "" then none else some m
      | none => none }

/-- `paginatedResponse(data, hasMore, nextKey?, message?, statusCode = 200)`;
`nextKey` is spread into `pagination` only when truthy. -/
def paginatedResponse (data : α) (hasMore : Bool) (nextKey : Option String)
    (message : Option String) (statusCode : Nat := 200) : Http α :=
  { statusCode := statusCode
    success := true
    data := some data
    pagination := some
      { hasMore := hasMore
        nextKey := match nextKey with
          | some k => if k = "" then none else some k
          | none => none }
    error := none
    message := match message with
      | some m => if m = "" then none else some m
      | none => none }

/-- `errorResponse(error, statusCode = 500)`. -/
def errorResponse (α : Type) (error : String)
    (statusCode : Nat := 500) : Http α :=
  { statusCode := statusCode
    success := false
    data := none
    pagination := none
    error := some error
    message := none }

/-- `validationErrorResponse(errors)`: 400, `error: "Validation failed"`,
`message` the comma-joined field errors. -/
def validationErrorResponse (α : Type) (errors : List String) : Http α :=
  { statusCode := 400
    success := false
    data := none
    pagination := none
    error := some "Validation failed"
    message := some (String.intercalate ", " errors) }

/-! ## Lambda handlers -/

/-- JavaScript truthiness of the optional `startKey` string, as tested
by `!startKey` in the history handler. -/
def jsTruthy (o : Option String) : Bool :=
  match o with
  | some s => s ≠ ""
  | none => false

/-- `details || SHIPMENT_STATUS_DESCRIPTIONS[status]`: the JavaScript
`||` falls through to the default when `details` is `undefined` *or*
the empty string (both falsy). -/
def jsOrDefault (details : Option String) (dflt : String) : String :=
  match details with
  | some s => if s = "" then dflt else s
  | none => dflt

/-- The `recordEvent` handler (`src/api/recordEvent.ts`), from the point
where the request body has been JSON-parsed (`body = none` models a
missing body; the distinct invalid-JSON 400 is omitted as it also leaves
the store untouched).  `now` is the handler's clock, `uuidHandler` its
`uuidv4()`; `uuidService`/`serviceNow` are the second `uuidv4()` and
clock reading inside `createEvent`.  Returns the HTTP result and the
store after the call.  Note the handler responds with its *locally
built* `shipmentEvent` and discards `createEvent`'s return value. -/
def recordEventHandler (store : List ShipmentEvent)
    (pathShipmentId : Option String) (body : Option CreateEventRequest)
    (now : Int) (uuidHandler uuidService : String) (serviceNow : Int) :
    Http ShipmentEvent × List ShipmentEvent :=
  match parseParams pathShipmentId with
  | none => (validationErrorResponse _ ["Invalid shipment ID"], store)
  | some shipmentId =>
    match body with
    | none => (errorResponse _ "Request body is required" 400, store)
    | some req =>
      if ¬ createEventSchemaOk req then
        (validationErrorResponse _ ["Validation failed on body fields"], store)
      else if ¬ validateEventTimestamp (some req.timestamp) now then
        (errorResponse _ "Event timestamp cannot be in the future" 400, store)
      else if (shippmentEventExist store shipmentId req.status req.timestamp).1 then
        (errorResponse _
          "Event with this shipment ID, status and timestamp already exists" 409,
         store)
      else
        let shipmentEvent : ShipmentEvent :=
          { id := uuidHandler
            shipmentId := shipmentId
            timestamp := req.timestamp
            status := req.status
            location := req.location
            details := some (jsOrDefault req.details
              (SHIPMENT_STATUS_DESCRIPTIONS req.status))
            createdAt := now }
        let afterCreate :=
          (createEvent store shipmentId shipmentEvent uuidService serviceNow).2
        (successResponse shipmentEvent (some "Event created successfully") 201,
         afterCreate)

/-- The `getLatestEvent` handler (`src/api/getLatestEvent.ts`): validate
the path parameter, call the service, 404 when it returns `null`. -/
def getLatestEventHandler (store : List ShipmentEvent)
    (pathShipmentId : Option String) : Http ShipmentEvent :=
  match parseParams pathShipmentId with
  | none => validationErrorResponse _ ["Invalid shipment ID"]
  | some shipmentId =>
    match getLatestEvent store shipmentId with
    | none =>
        errorResponse _ ("No events found for shipment " ++ shipmentId) 404
    | some e =>
        successResponse e (some "Latest event retrieved successfully") 200

/-- The `getEventHistory` handler (`src/api/getEventHistory.ts`):
validate the path parameter and the query parameters, call the service,
and apply the empty-page rule `result.events.length === 0 && !startKey`.
A thrown cursor-decoding error lands in the catch-all 500 branch. -/
def getEventHistoryHandler (store : List ShipmentEvent)
    (pathShipmentId : Option String) (qLimit qStartKey : Option String) :
    Http (List ShipmentEvent) :=
  match parseParams pathShipmentId with
  | none => validationErrorResponse _ ["Invalid shipment ID"]
  | some shipmentId =>
    match validateQuery qLimit qStartKey with
    | .error errs => validationErrorResponse _ errs
    | .ok q =>
      match getEventHistoryService store shipmentId q.limit.toNat q.startKey with
      | .error _ =>
          errorResponse _
            "Internal server error occurred while retrieving event history" 500
      | .ok (events, hasMore, nextKey) =>
          if events.length = 0 ∧ ¬ jsTruthy q.startKey then
            errorResponse _ ("No events found for shipment " ++ shipmentId) 404
          else
            paginatedResponse events hasMore nextKey
              (some ("Retrieved " ++ toString events.length ++
                " events for shipment " ++ shipmentId)) 200

/-! ## Specification-side predicates (stated from the spec's words, to be
compared with the source-derived matchers) -/

/-- Spec wording: an uppercase letter. -/
def specUpperChar (c : Char) : Prop := 'A' ≤ c ∧ c ≤ 'Z'

/-- Spec wording: a digit. -/
def specDigitChar (c : Char) : Prop := '0' ≤ c ∧ c ≤ '9'

/-- Spec wording: an alphanumeric character, hyphen or underscore,
case-insensitive. -/
def specGenericChar (c : Char) : Prop :=
  ('A' ≤ c ∧ c ≤ 'Z') ∨ ('a' ≤ c ∧ c ≤ 'z') ∨ ('0' ≤ c ∧ c ≤ '9') ∨
    c = '-' ∨ c = '_'

/-- Spec wording, Universal Postal Union shape: exactly 2 uppercase
letters, 9 digits, 2 uppercase letters (13 chars total). -/
def specUPUShape (s : String) : Prop :=
  ∃ a b c : List Char, s.data = a ++ b ++ c ∧
    a.length = 2 ∧ b.length = 9 ∧ c.length = 2 ∧
    (∀ x ∈ a, specUpperChar x) ∧ (∀ x ∈ b, specDigitChar x) ∧
    (∀ x ∈ c, specUpperChar x)

/-- Spec wording, prefixed numeric shape: the literal prefix and hyphen
(`SHIP-` in this repository) followed by 6 to 12 digits. -/
def specPrefixedShape (s : String) : Prop :=
  ∃ ds : List Char, s.data = 'S' :: 'H' :: 'I' :: 'P' :: '-' :: ds ∧
    (∀ x ∈ ds, specDigitChar x) ∧ 6 ≤ ds.length ∧ ds.length ≤ 12

/-- Spec wording, generic shape: 5 to 50 alphanumeric / hyphen /
underscore characters, case-insensitive. -/
def specGenericShape (s : String) : Prop :=
  5 ≤ s.data.length ∧ s.data.length ≤ 50 ∧ ∀ x ∈ s.data, specGenericChar x

/-! ## Theorems -/

/-- C5: `validateEventTimestamp` returns false when the timestamp is
unparseable, and otherwise returns true iff
`now - 365 days ≤ ts ≤ now + 5 minutes`, both boundaries inclusive
(in particular exactly `now + 5min` is valid and `now + 5min + 1s` is
not, since the bounds are non-strict). -/
theorem c5_validate_event_timestamp :
    ∀ (parsed : Option Int) (now : Int),
      validateEventTimestamp parsed now = true ↔
        ∃ t, parsed = some t ∧
          now - 365 * 24 * 60 * 60 * 1000 ≤ t ∧ t ≤ now + 5 * 60 * 1000 := by
  intro parsed now
  cases parsed with
  | none => simp [validateEventTimestamp]
  | some t =>
      simp only [validateEventTimestamp, validateEventTimestampV,
        Bool.and_eq_true, decide_eq_true_eq, Option.some.injEq]
      constructor
      · intro h
        exact ⟨t, rfl, h.2, h.1⟩
      · rintro ⟨t', ht', h1, h2⟩
        subst ht'
        exact ⟨h2, h1⟩

/-- C9 counterexample: the claim says a *present* `limit` must parse as
an integer in `[1,100]` and be rejected otherwise; but a present, empty
`limit` string is accepted (the JavaScript `val ? parseInt(val, 10) : 50`
treats the falsy empty string like an absent value), even though the
empty string has no integer parse at all. -/
theorem c9_counterexample_empty_limit :
    validateQuery (some "") none = .ok ⟨50, none⟩ ∧ jsParseInt "" = none := by
  constructor <;> rfl

/-- C9 (amended): a missing `limit` — or an *empty* one, which the
code's truthiness test conflates with missing — defaults to 50; a
present non-empty `limit` is accepted with value `n` iff JavaScript
`parseInt(limit, 10)` yields `n` and `1 ≤ n ≤ 100` (so `0`, `101` and
non-numeric strings are rejected with a validation error); `startKey`
is passed through unvalidated. -/
theorem c9_query_params_validation :
    (∀ sk, validateQuery none sk = .ok ⟨50, sk⟩) ∧
    (∀ sk, validateQuery (some "") sk = .ok ⟨50, sk⟩) ∧
    (∀ s sk n, s ≠ "" →
      (validateQuery (some s) sk = .ok ⟨n, sk⟩ ↔
        jsParseInt s = some n ∧ 1 ≤ n ∧ n ≤ 100)) ∧
    (∀ sk, validateQuery (some "0") sk =
      .error ["limit: Limit must be between 1 and 100"]) ∧
    (∀ sk, validateQuery (some "101") sk =
      .error ["limit: Limit must be between 1 and 100"]) := by
  refine ⟨fun sk => rfl, fun sk => rfl, ?_, fun sk => rfl, fun sk => rfl⟩
  intro s sk n hs
  simp only [validateQuery, if_neg hs]
  cases h : jsParseInt s with
  | none => simp
  | some v =>
      simp only [Option.some.injEq]
      split
      · rename_i hrange
        constructor
        · intro hok
          cases hok
          exact ⟨rfl, hrange.1, hrange.2⟩
        · rintro ⟨rfl, -, -⟩
          rfl
      · rename_i hrange
        constructor
        · intro hok
          cases hok
        · rintro ⟨rfl, h1, h2⟩
          exact absurd ⟨h1, h2⟩ hrange

/-- C9 witness: a concrete accepted limit obtained through the amended
characterization. -/
theorem c9_query_params_validation_witness :
    validateQuery (some "7") (some "cursor") = .ok ⟨7, some "cursor"⟩ :=
  (c9_query_params_validation.2.2.1 "7" (some "cursor") 7 (by decide)).mpr
    ⟨rfl, by decide, by decide⟩

/-- C10: a write whose (parseable) timestamp is older than 365 days
before now is rejected with 400 and the error text
`Event timestamp cannot be in the future` — the very same response the
handler gives for a timestamp beyond `now + 5min`, because one
`validateEventTimestamp` check guards both bounds and feeds a single
error message; the store is untouched in both cases. -/
theorem c10_too_old_timestamp_message (store : List ShipmentEvent)
    (sid : String) (req : CreateEventRequest) (now : Int)
    (u1 u2 : String) (n2 : Int)
    (hsid : shipmentIdValid sid = true)
    (hschema : createEventSchemaOk req = true)
    (hts : req.timestamp < now - 365 * 24 * 60 * 60 * 1000 ∨
      now + 5 * 60 * 1000 < req.timestamp) :
    recordEventHandler store (some sid) (some req) now u1 u2 n2 =
      (errorResponse ShipmentEvent "Event timestamp cannot be in the future" 400,
       store) := by
  have hv : validateEventTimestamp (some req.timestamp) now = false := by
    simp only [validateEventTimestamp, validateEventTimestampV,
      Bool.and_eq_false_iff, decide_eq_false_iff_not, not_le]
    omega
  simp [recordEventHandler, parseParams, hsid, hschema, hv]

/-- C10 witness: a concrete timestamp far in the past (the epoch, with
"now" in 2025) draws the future-timestamp message. -/
theorem c10_too_old_timestamp_message_witness :
    recordEventHandler [] (some "SHIP-123456")
        (some ⟨0, .created, none, none⟩) 1748298000000 "u1" "u2" 1748298000000 =
      (errorResponse ShipmentEvent "Event timestamp cannot be in the future" 400,
       []) :=
  c10_too_old_timestamp_message [] "SHIP-123456" ⟨0, .created, none, none⟩
    1748298000000 "u1" "u2" 1748298000000 (by decide) (by decide)
    (Or.inl (by decide))

/-- C1: `getLatestEvent` queries with `Limit: 1`, so it reads only the
first event of the partition in `id` (RANGE key) order and sorts that
single-element page.  On a shipment with events at timestamps
`1 < 2 < 3` whose oldest event happens to carry the smallest id, it
returns the timestamp-1 event — not the timestamp-3 event the claim and
the spec require.  (The zero-event half of the claim does hold: the
handler answers 404.) -/
theorem c1_latest_event_limit_one_bug :
    getLatestEvent
        [⟨"a", "SHIP-123456", 1, .created, none, none, 0⟩,
         ⟨"b", "SHIP-123456", 2, .picked_up, none, none, 0⟩,
         ⟨"c", "SHIP-123456", 3, .delivered, none, none, 0⟩]
        "SHIP-123456" =
      some ⟨"a", "SHIP-123456", 1, .created, none, none, 0⟩ ∧
    (∀ e ∈ [⟨"a", "SHIP-123456", 1, .created, none, none, 0⟩,
            ⟨"b", "SHIP-123456", 2, .picked_up, none, none, 0⟩,
            (⟨"c", "SHIP-123456", 3, .delivered, none, none, 0⟩ :
              ShipmentEvent)], e.timestamp ≤ 3) ∧
    (getLatestEventHandler [] (some "SHIP-123456")).statusCode = 404 ∧
    (getLatestEventHandler [] (some "SHIP-123456")).error =
      some "No events found for shipment SHIP-123456" := by
  refine ⟨by decide, by decide, by decide, by decide⟩

/-- C2: duplicate detection misses duplicates that are not the first
item of the partition.  `shippmentEventExist` issues a `Query` with
`Limit: 1` *and* a `FilterExpression`; DynamoDB applies `Limit` before
the filter, so only the partition's first item (in `id` order) is ever
inspected.  Here the shipment already holds the triple
`(SHIP-123456, picked_up, 2)` in its second item: the existence check
reads only the first item, the filter rejects it, the handler sees
`exists: false`, answers 201 and performs the write — leaving two
records with the identical triple where the claim requires a 409 and an
unchanged store. -/
theorem c2_duplicate_write_slips_through :
    (recordEventHandler
        [⟨"a", "SHIP-123456", 1, .created, none, none, 0⟩,
         ⟨"b", "SHIP-123456", 2, .picked_up, none, none, 0⟩]
        (some "SHIP-123456") (some ⟨2, .picked_up, none, none⟩)
        2 "u1" "u2" 2).1.statusCode = 201 ∧
    ((recordEventHandler
        [⟨"a", "SHIP-123456", 1, .created, none, none, 0⟩,
         ⟨"b", "SHIP-123456", 2, .picked_up, none, none, 0⟩]
        (some "SHIP-123456") (some ⟨2, .picked_up, none, none⟩)
        2 "u1" "u2" 2).2.filter
      (fun e => e.shipmentId = "SHIP-123456" ∧ e.status = .picked_up ∧
        e.timestamp = 2)).length = 2 := by
  refine ⟨by decide, by decide⟩

/-- C3: the event returned on success is not the record that was
persisted.  The handler builds `shipmentEvent` with its own `uuidv4()`
and responds with it, but `createEvent` ignores the incoming `id` and
`createdAt`, generates a second `uuidv4()` for the item it puts, and the
handler discards `createEvent`'s return value.  Concretely: the response
carries id `handler-uuid` while the only record in the store carries id
`service-uuid`, so the returned event equals no persisted record. -/
theorem c3_returned_event_not_persisted :
    ((recordEventHandler [] (some "SHIP-123456")
        (some ⟨1, .created, none, some "x"⟩) 1 "handler-uuid" "service-uuid"
        1).1.statusCode = 201) ∧
    ((recordEventHandler [] (some "SHIP-123456")
        (some ⟨1, .created, none, some "x"⟩) 1 "handler-uuid" "service-uuid"
        1).1.data.map (fun e => e.id) = some "handler-uuid") ∧
    ((recordEventHandler [] (some "SHIP-123456")
        (some ⟨1, .created, none, some "x"⟩) 1 "handler-uuid" "service-uuid"
        1).2.map (fun e => e.id) = ["service-uuid"]) ∧
    (∀ e ∈ (recordEventHandler [] (some "SHIP-123456")
        (some ⟨1, .created, none, some "x"⟩) 1 "handler-uuid" "service-uuid"
        1).2,
      (recordEventHandler [] (some "SHIP-123456")
        (some ⟨1, .created, none, some "x"⟩) 1 "handler-uuid" "service-uuid"
        1).1.data ≠ some e) := by
  refine ⟨by decide, by decide, by decide, by decide⟩

/-- C4 counterexample: the claim says a supplied `details` is stored
verbatim, but a supplied *empty* `details` is replaced by the status's
default description (`details || SHIPMENT_STATUS_DESCRIPTIONS[status]`
falls through on the falsy empty string). -/
theorem c4_counterexample_empty_details :
    ((recordEventHandler [] (some "SHIP-123456")
        (some ⟨1, .created, none, some ""⟩) 1 "u1" "u2" 1).1.statusCode =
      201) ∧
    ((recordEventHandler [] (some "SHIP-123456")
        (some ⟨1, .created, none, some ""⟩) 1 "u1" "u2" 1).2.map
      (fun e => e.details) =
      [some "Shipment has been created and registered in the system"]) ∧
    some "" ≠
      some "Shipment has been created and registered in the system" := by
  refine ⟨by decide, by decide, by decide⟩

/-- C4 (amended): on a successful write, the persisted record's
`details` is the fixed description for its status — total over the
10-value enum — whenever the caller *omitted* `details` or supplied the
empty string (which the code's `||` defaulting conflates with omission);
a supplied non-empty `details` is stored verbatim.  The response body
carries the same `details` value. -/
theorem c4_details_defaulting (store : List ShipmentEvent) (sid : String)
    (req : CreateEventRequest) (now : Int) (u1 u2 : String) (n2 : Int)
    (hsid : shipmentIdValid sid = true)
    (hschema : createEventSchemaOk req = true)
    (hts : validateEventTimestamp (some req.timestamp) now = true)
    (hdup : (shippmentEventExist store sid req.status req.timestamp).1 = false) :
    ∃ e, (recordEventHandler store (some sid) (some req) now u1 u2 n2).2 =
        store ++ [e] ∧
      e.status = req.status ∧
      (recordEventHandler store (some sid) (some req) now u1 u2 n2).1.data.map
        (fun d => d.details) = some e.details ∧
      ((req.details = none ∨ req.details = some "") →
        e.details = some (SHIPMENT_STATUS_DESCRIPTIONS req.status)) ∧
      (∀ s, req.details = some s → s ≠ "" → e.details = some s) := by
  simp only [recordEventHandler, parseParams, hsid, if_pos rfl, hschema, hts,
    hdup, Bool.true_eq_false, not_true_eq_false, if_false, Bool.false_eq_true,
    ite_true, ite_false, not_false_eq_true, createEvent, successResponse]
  refine ⟨_, rfl, rfl, rfl, ?_, ?_⟩
  · rintro (h | h) <;> simp [h, jsOrDefault]
  · intro s hs hne
    simp [hs, jsOrDefault, hne]

/-- C4 witness: a concrete omitted-`details` write stores the default
description for `delivered`. -/
theorem c4_details_defaulting_witness :
    ∃ e, (recordEventHandler [] (some "SHIP-123456")
        (some ⟨1, .delivered, none, none⟩) 1 "u1" "u2" 1).2 = [] ++ [e] ∧
      e.status = ShipmentStatus.delivered ∧
      (recordEventHandler [] (some "SHIP-123456")
        (some ⟨1, .delivered, none, none⟩) 1 "u1" "u2" 1).1.data.map
        (fun d => d.details) = some e.details ∧
      (((⟨1, .delivered, none, none⟩ : CreateEventRequest).details = none ∨
        (⟨1, .delivered, none, none⟩ : CreateEventRequest).details = some "") →
        e.details = some (SHIPMENT_STATUS_DESCRIPTIONS .delivered)) ∧
      (∀ s, (⟨1, .delivered, none, none⟩ : CreateEventRequest).details =
        some s → s ≠ "" → e.details = some s) :=
  c4_details_defaulting [] "SHIP-123456" ⟨1, .delivered, none, none⟩ 1 "u1"
    "u2" 1 (by decide) (by decide) (by decide) (by decide)

/-- `matchLead` succeeds exactly on lists that extend `pre`. -/
theorem matchLead_eq_some_iff (pre : List Char) :
    ∀ s r, matchLead pre s = some r ↔ s = pre ++ r := by
  induction pre with
  | nil =>
      intro s r
      simp [matchLead]
  | cons p ps ih =>
      intro s r
      cases s with
      | nil => simp [matchLead]
      | cons c cs =>
          by_cases hpc : p = c
          · subst hpc
            simp [matchLead, ih]
          · simp only [matchLead, if_neg hpc, List.cons_append]
            constructor
            · intro h
              exact Option.noConfusion h
            · intro h
              injection h with h1 h2
              exact absurd h1.symm hpc

/-- The UPU matcher agrees with the spec's decomposition. -/
theorem matchUPU_iff (cs : List Char) :
    matchUPU cs = true ↔
      ∃ a b c : List Char, cs = a ++ b ++ c ∧
        a.length = 2 ∧ b.length = 9 ∧ c.length = 2 ∧
        (∀ x ∈ a, specUpperChar x) ∧ (∀ x ∈ b, specDigitChar x) ∧
        (∀ x ∈ c, specUpperChar x) := by
  have hchar1 : ∀ x : Char, isUpperC x = true ↔ specUpperChar x := by
    intro x
    simp [isUpperC, specUpperChar]
  have hchar2 : ∀ x : Char, isDigitC x = true ↔ specDigitChar x := by
    intro x
    simp [isDigitC, specDigitChar]
  simp only [matchUPU, Bool.and_eq_true, beq_iff_eq, List.all_eq_true]
  constructor
  · rintro ⟨⟨⟨hlen, hup1⟩, hdig⟩, hup2⟩
    refine ⟨cs.take 2, (cs.drop 2).take 9, cs.drop 11, ?_, ?_, ?_, ?_, ?_, ?_, ?_⟩
    · have h1 : cs.take 2 ++ cs.drop 2 = cs := cs.take_append_drop 2
      have h2 : (cs.drop 2).take 9 ++ (cs.drop 2).drop 9 = cs.drop 2 :=
        (cs.drop 2).take_append_drop 9
      have h3 : (cs.drop 2).drop 9 = cs.drop 11 := by
        rw [List.drop_drop]
      rw [List.append_assoc, ← h3, h2, h1]
    · simp [List.length_take, hlen]
    · simp [List.length_take, List.length_drop, hlen]
    · simp [List.length_drop, hlen]
    · intro x hx
      exact (hchar1 x).mp (hup1 x hx)
    · intro x hx
      exact (hchar2 x).mp (hdig x hx)
    · intro x hx
      exact (hchar1 x).mp (hup2 x hx)
  · rintro ⟨a, b, c, rfl, ha, hb, hc, hua, hdb, huc⟩
    have hab : (a ++ b).length = 11 := by simp [ha, hb]
    have htake : (a ++ b ++ c).take 2 = a := by
      rw [List.append_assoc]
      exact List.take_left' ha
    have hdrop2 : (a ++ b ++ c).drop 2 = b ++ c := by
      rw [List.append_assoc]
      exact List.drop_left' ha
    have hdrop11 : (a ++ b ++ c).drop 11 = c := List.drop_left' hab
    refine ⟨⟨⟨by simp [ha, hb, hc], ?_⟩, ?_⟩, ?_⟩
    · rw [htake]
      intro x hx
      exact (hchar1 x).mpr (hua x hx)
    · rw [hdrop2, List.take_left' hb]
      intro x hx
      exact (hchar2 x).mpr (hdb x hx)
    · rw [hdrop11]
      intro x hx
      exact (hchar1 x).mpr (huc x hx)

/-- The prefixed matcher agrees with the spec's decomposition. -/
theorem matchPrefixed_iff (cs : List Char) :
    matchPrefixed cs = true ↔
      ∃ ds : List Char, cs = 'S' :: 'H' :: 'I' :: 'P' :: '-' :: ds ∧
        (∀ x ∈ ds, specDigitChar x) ∧ 6 ≤ ds.length ∧ ds.length ≤ 12 := by
  have hchar2 : ∀ x : Char, isDigitC x = true ↔ specDigitChar x := by
    intro x
    simp [isDigitC, specDigitChar]
  constructor
  · intro h
    unfold matchPrefixed at h
    cases hm : matchLead "SHIP-".data cs with
    | none => rw [hm] at h; cases h
    | some rest =>
        rw [hm] at h
        have hcs : cs = "SHIP-".data ++ rest := (matchLead_eq_some_iff _ _ _).mp hm
        simp only [Bool.and_eq_true, List.all_eq_true, decide_eq_true_eq,
          and_assoc] at h
        exact ⟨rest, hcs, fun x hx => (hchar2 x).mp (h.1 x hx), h.2.1, h.2.2⟩
  · rintro ⟨ds, rfl, hd, h6, h12⟩
    have hm : matchLead "SHIP-".data ('S' :: 'H' :: 'I' :: 'P' :: '-' :: ds) =
        some ds := (matchLead_eq_some_iff _ _ _).mpr rfl
    unfold matchPrefixed
    rw [hm]
    simp only [Bool.and_eq_true, List.all_eq_true, decide_eq_true_eq,
      and_assoc]
    exact ⟨fun x hx => (hchar2 x).mpr (hd x hx), h6, h12⟩

/-- The generic matcher agrees with the spec's decomposition. -/
theorem matchGeneric_iff (cs : List Char) :
    matchGeneric cs = true ↔
      5 ≤ cs.length ∧ cs.length ≤ 50 ∧ ∀ x ∈ cs, specGenericChar x := by
  have hchar : ∀ x : Char, isGenericC x = true ↔ specGenericChar x := by
    intro x
    simp [isGenericC, isUpperC, isDigitC, specGenericChar, or_assoc,
      or_comm, or_left_comm]
  simp only [matchGeneric, Bool.and_eq_true, List.all_eq_true,
    decide_eq_true_eq]
  constructor
  · rintro ⟨⟨h5, h50⟩, hall⟩
    exact ⟨h5, h50, fun x hx => (hchar x).mp (hall x hx)⟩
  · rintro ⟨h5, h50, hall⟩
    exact ⟨⟨h5, h50⟩, fun x hx => (hchar x).mpr (hall x hx)⟩

/-- C6: the shipment-ID format predicate accepts exactly the strings
matching at least one of the three spec shapes — the UPU shape (2
uppercase letters, 9 digits, 2 uppercase letters), the prefixed numeric
shape (`SHIP-` plus 6–12 digits), or the generic shape (5–50
alphanumeric/hyphen/underscore characters, case-insensitive) — and in
particular rejects the empty string. -/
theorem c6_shipment_id_format :
    (∀ s : String, validateShipmentIdFormat s = true ↔
      specUPUShape s ∨ specPrefixedShape s ∨ specGenericShape s) ∧
    validateShipmentIdFormat "" = false := by
  constructor
  · intro s
    simp only [validateShipmentIdFormat, Bool.or_eq_true, specUPUShape,
      specPrefixedShape, specGenericShape]
    rw [matchUPU_iff, matchPrefixed_iff, matchGeneric_iff, or_assoc]
  · decide

/-- Inserting never produces the empty list. -/
theorem insertSorted_ne_nil (lt : α → α → Bool) (x : α) (l : List α) :
    insertSorted lt x l ≠ [] := by
  cases l with
  | nil => simp [insertSorted]
  | cons y ys =>
      simp only [insertSorted]
      split <;> simp

/-- The stable sort returns the empty list only for the empty list. -/
theorem sortByLt_eq_nil_iff (lt : α → α → Bool) (l : List α) :
    sortByLt lt l = [] ↔ l = [] := by
  cases l with
  | nil => simp [sortByLt]
  | cons x xs =>
      simp only [sortByLt]
      constructor
      · intro h
        exact absurd h (insertSorted_ne_nil lt x (sortByLt lt xs))
      · intro h
        exact absurd h (by simp)

/-- A query that returns an empty page reports no `LastEvaluatedKey`:
DynamoDB only reports a continuation key when the read stopped at
`Limit`, which an empty page never does. -/
theorem dynQueryPage_nil_no_lek (store : List ShipmentEvent) (sid : String)
    (limit : Nat) (esk : Option DynKey)
    (h : (dynQueryPage store sid limit esk).1 = []) :
    (dynQueryPage store sid limit esk).2 = none := by
  simp only [dynQueryPage] at h ⊢
  split
  · rename_i hcond
    exact absurd h hcond.2
  · rfl

/-- If `getEventHistory` returns an empty page, it also reports
`hasMore = false` and no `nextKey`. -/
theorem getEventHistoryService_empty (store : List ShipmentEvent)
    (sid : String) (limit : Nat) (sk : Option String)
    (hm : Bool) (nk : Option String)
    (h : getEventHistoryService store sid limit sk = .ok ([], hm, nk)) :
    hm = false ∧ nk = none := by
  unfold getEventHistoryService at h
  cases hesk : exclusiveStartKeyOf sk with
  | error e => rw [hesk] at h; cases h
  | ok esk =>
      rw [hesk] at h
      simp only [Except.ok.injEq, Prod.mk.injEq] at h
      obtain ⟨hevts, hmore, hnext⟩ := h
      have hpage : (dynQueryPage store sid limit esk).1 = [] :=
        (sortByLt_eq_nil_iff _ _).mp hevts
      have hlek := dynQueryPage_nil_no_lek store sid limit esk hpage
      rw [hlek] at hmore hnext
      exact ⟨hmore.symm, hnext.symm⟩

/-- C7 counterexample: with an *empty-string* `startKey` — supplied, but
falsy, so `!startKey` treats it as absent — an empty first page yields
the 404 error response, where the claim requires a 200 success with an
empty page. -/
theorem c7_counterexample_empty_start_key :
    getEventHistoryHandler [] (some "SHIP-123456") none (some "") =
      errorResponse (List ShipmentEvent)
        "No events found for shipment SHIP-123456" 404 ∧
    (some "" : Option String) ≠ none := by
  refine ⟨by decide, by decide⟩

/-- C7 (amended): for a valid shipment ID and validated query
parameters, when the service returns an empty page the handler answers
404 `No events found for shipment <id>` if the `startKey` was absent
*or empty* (the code's truthiness test conflates the two), and answers
200 with `success: true`, an empty `data` array and
`pagination.hasMore = false` if a non-empty `startKey` was supplied. -/
theorem c7_empty_page_rule (store : List ShipmentEvent) (sid : String)
    (qLimit qStartKey : Option String) (q : GetEventsQuery)
    (hmRes : Bool) (nkRes : Option String)
    (hsid : shipmentIdValid sid = true)
    (hq : validateQuery qLimit qStartKey = .ok q)
    (hsvc : getEventHistoryService store sid q.limit.toNat q.startKey =
      .ok ([], hmRes, nkRes)) :
    (jsTruthy q.startKey = false →
      getEventHistoryHandler store (some sid) qLimit qStartKey =
        errorResponse (List ShipmentEvent)
          ("No events found for shipment " ++ sid) 404) ∧
    (jsTruthy q.startKey = true →
      getEventHistoryHandler store (some sid) qLimit qStartKey =
        paginatedResponse [] false none
          (some ("Retrieved 0 events for shipment " ++ sid)) 200) := by
  obtain ⟨hm0, nk0⟩ :=
    getEventHistoryService_empty store sid q.limit.toNat q.startKey hmRes
      nkRes hsvc
  subst hm0 nk0
  constructor
  · intro htruthy
    simp [getEventHistoryHandler, parseParams, hsid, hq, hsvc, htruthy]
  · intro htruthy
    simp [getEventHistoryHandler, parseParams, hsid, hq, hsvc, htruthy]
    rfl

/-- C7 witness: an exhausted later page (a legitimate cursor, an empty
store) answers 200 with empty data and `hasMore: false`. -/
theorem c7_empty_page_rule_witness :
    getEventHistoryHandler [] (some "SHIP-123456") none
        (some (encodeCursor ⟨"SHIP-123456", "zz"⟩)) =
      paginatedResponse [] false none
        (some "Retrieved 0 events for shipment SHIP-123456") 200 :=
  (c7_empty_page_rule [] "SHIP-123456" none
      (some (encodeCursor ⟨"SHIP-123456", "zz"⟩))
      ⟨50, some (encodeCursor ⟨"SHIP-123456", "zz"⟩)⟩ false none
      (by decide) rfl rfl).2 (by decide)

/-- Decoding the alphabet character of a 6-bit value recovers the value. -/
theorem b64index_b64char : ∀ n, n < 64 → b64index (b64char n) = some n := by
  decide

/-- Alphabet characters are never the padding character. -/
theorem b64char_ne_pad : ∀ n, n < 64 → ¬ b64char n = '=' := by
  decide

/-- Base64 decoding inverts base64 encoding on byte sequences. -/
theorem b64_roundtrip : ∀ bs : List Nat, (∀ b ∈ bs, b < 256) →
    b64decode (b64encode bs) = some bs
  | [], _ => rfl
  | [a], h => by
      have ha : a < 256 := h a (by simp)
      have h1 := b64index_b64char (a / 4) (by omega)
      have h2 := b64index_b64char (a % 4 * 16) (by omega)
      simp only [b64encode, b64decode, h1, h2, if_pos, and_self, ite_true,
        Option.some.injEq, List.cons.injEq, and_true]
      omega
  | [a, b], h => by
      have ha : a < 256 := h a (by simp)
      have hb : b < 256 := h b (by simp)
      have h1 := b64index_b64char (a / 4) (by omega)
      have h2 := b64index_b64char (a % 4 * 16 + b / 16) (by omega)
      have h3 := b64index_b64char (b % 16 * 4) (by omega)
      have hneY : ¬ b64char (b % 16 * 4) = '=' :=
        b64char_ne_pad _ (by omega)
      simp only [b64encode, b64decode, h1, h2, h3, if_neg hneY, if_pos,
        ite_true, Option.some.injEq, List.cons.injEq, and_true]
      omega
  | a :: b :: c :: d :: rest, h => by
      have ha : a < 256 := h a (by simp)
      have hb : b < 256 := h b (by simp)
      have hc : c < 256 := h c (by simp)
      have ih := b64_roundtrip (d :: rest) (fun x hx => h x (by simp at hx ⊢; tauto))
      have h1 := b64index_b64char (a / 4) (by omega)
      have h2 := b64index_b64char (a % 4 * 16 + b / 16) (by omega)
      have h3 := b64index_b64char (b % 16 * 4 + c / 64) (by omega)
      have h4 := b64index_b64char (c % 64) (by omega)
      have hne3 : ¬ b64char (b % 16 * 4 + c / 64) = '=' :=
        b64char_ne_pad _ (by omega)
      have hne4 : ¬ b64char (c % 64) = '=' :=
        b64char_ne_pad _ (by omega)
      simp only [b64encode, b64decode, h1, h2, h3, h4, if_neg hne3,
        if_neg hne4, ih, Option.map_some', Option.some.injEq,
        List.cons.injEq]
      refine ⟨by omega, by omega, by omega, trivial⟩
  | [a, b, c], h => by
      have ha : a < 256 := h a (by simp)
      have hb : b < 256 := h b (by simp)
      have hc : c < 256 := h c (by simp)
      have h1 := b64index_b64char (a / 4) (by omega)
      have h2 := b64index_b64char (a % 4 * 16 + b / 16) (by omega)
      have h3 := b64index_b64char (b % 16 * 4 + c / 64) (by omega)
      have h4 := b64index_b64char (c % 64) (by omega)
      have hne3 : ¬ b64char (b % 16 * 4 + c / 64) = '=' :=
        b64char_ne_pad _ (by omega)
      have hne4 : ¬ b64char (c % 64) = '=' :=
        b64char_ne_pad _ (by omega)
      simp only [b64encode, b64decode, h1, h2, h3, h4, if_neg hne3,
        if_neg hne4, Option.map_some', Option.some.injEq, List.cons.injEq]
      refine ⟨by omega, by omega, by omega, trivial⟩

/-- `parseQuoted` consumes an escape-free string body up to its closing
quote. -/
theorem parseQuoted_append (content : List Char)
    (h : ∀ c ∈ content, c ≠ '"' ∧ c ≠ '\\') :
    ∀ rest, parseQuoted (content ++ '"' :: rest) = some (content, rest) := by
  induction content with
  | nil =>
      intro rest
      simp [parseQuoted]
  | cons c cs ih =>
      intro rest
      have hc := h c (by simp)
      have hcs : ∀ x ∈ cs, x ≠ '"' ∧ x ≠ '\\' := fun x hx => h x (by simp [hx])
      simp [parseQuoted, hc.1, hc.2, ih hcs rest]

/-- Parsing the JSON document produced for a key recovers the key, for
the escape-free fields the store produces. -/
theorem jsonParseKey_jsonKeyChars (k : DynKey)
    (hsid : ∀ c ∈ k.shipmentId.data, c ≠ '"' ∧ c ≠ '\\')
    (hid : ∀ c ∈ k.id.data, c ≠ '"' ∧ c ≠ '\\') :
    jsonParseKey (jsonKeyChars k) = some k := by
  have hlead1 : matchLead "\x7b\"shipmentId\":\"".data (jsonKeyChars k) =
      some (k.shipmentId.data ++ "\",\"id\":\"".data ++ k.id.data ++
        "\"\x7d".data) := by
    apply (matchLead_eq_some_iff _ _ _).mpr
    simp [jsonKeyChars]
  have hq1 : parseQuoted (k.shipmentId.data ++ "\",\"id\":\"".data ++
      k.id.data ++ "\"\x7d".data) =
      some (k.shipmentId.data, ",\"id\":\"".data ++ k.id.data ++
        "\"\x7d".data) := by
    have hshape : k.shipmentId.data ++ "\",\"id\":\"".data ++ k.id.data ++
        "\"\x7d".data = k.shipmentId.data ++ '"' ::
          (",\"id\":\"".data ++ k.id.data ++ "\"\x7d".data) := by
      simp
    rw [hshape]
    exact parseQuoted_append k.shipmentId.data hsid _
  have hlead2 : matchLead ",\"id\":\"".data (",\"id\":\"".data ++
      k.id.data ++ "\"\x7d".data) =
      some (k.id.data ++ "\"\x7d".data) := by
    apply (matchLead_eq_some_iff _ _ _).mpr
    simp
  have hq2 : parseQuoted (k.id.data ++ "\"\x7d".data) =
      some (k.id.data, ['\x7d']) := by
    have hshape : k.id.data ++ "\"\x7d".data = k.id.data ++ '"' :: ['\x7d'] :=
      rfl
    rw [hshape]
    exact parseQuoted_append k.id.data hid _
  simp only [jsonParseKey, hlead1, Option.bind_eq_bind, Option.some_bind,
    hq1, hlead2, hq2]

/-- Decoding an encoded cursor recovers the store's continuation key,
for the ASCII, escape-free key attributes the store produces. -/
theorem decodeCursor_encodeCursor (k : DynKey)
    (hsid : ∀ c ∈ k.shipmentId.data, c.toNat < 128 ∧ c ≠ '"' ∧ c ≠ '\\')
    (hid : ∀ c ∈ k.id.data, c.toNat < 128 ∧ c ≠ '"' ∧ c ≠ '\\') :
    decodeCursor (encodeCursor k) = some k := by
  have hlit1 : ∀ c ∈ "\x7b\"shipmentId\":\"".data, c.toNat < 128 := by decide
  have hlit2 : ∀ c ∈ "\",\"id\":\"".data, c.toNat < 128 := by decide
  have hlit3 : ∀ c ∈ "\"\x7d".data, c.toNat < 128 := by decide
  have hjson : ∀ c ∈ jsonKeyChars k, c.toNat < 128 := by
    intro c hc
    simp only [jsonKeyChars, List.append_assoc, List.mem_append] at hc
    rcases hc with hc | hc | hc | hc | hc
    · exact hlit1 c hc
    · exact (hsid c hc).1
    · exact hlit2 c hc
    · exact (hid c hc).1
    · exact hlit3 c hc
  have hbytes : ∀ b ∈ (jsonKeyChars k).map Char.toNat, b < 256 := by
    intro b hb
    simp only [List.mem_map] at hb
    obtain ⟨c, hc, rfl⟩ := hb
    have := hjson c hc
    omega
  have hall : ((jsonKeyChars k).map Char.toNat).all (· < 128) = true := by
    simp only [List.all_eq_true, List.mem_map, decide_eq_true_eq]
    rintro b ⟨c, hc, rfl⟩
    exact hjson c hc
  have hmap : ((jsonKeyChars k).map Char.toNat).map Char.ofNat =
      jsonKeyChars k := by
    rw [List.map_map]
    have : ∀ c ∈ jsonKeyChars k, (Char.ofNat ∘ Char.toNat) c = id c := by
      intro c _
      simp [Char.ofNat_toNat]
    rw [List.map_congr_left this, List.map_id]
  simp only [decodeCursor, encodeCursor, Option.bind_eq_bind]
  rw [b64_roundtrip _ hbytes]
  simp only [Option.some_bind, hall, if_true, hmap]
  exact jsonParseKey_jsonKeyChars k (fun c hc => (hsid c hc).2)
    (fun c hc => (hid c hc).2)

/-- Encoding a non-empty byte sequence never yields the empty string. -/
theorem b64encode_ne_nil : ∀ bs : List Nat, bs ≠ [] → b64encode bs ≠ []
  | [], h => absurd rfl h
  | [_], _ => by simp [b64encode]
  | [_, _], _ => by simp [b64encode]
  | _ :: _ :: _ :: _, _ => by simp [b64encode]

/-- The JSON document of a key is never empty (it starts with a brace). -/
theorem jsonKeyChars_ne_nil (k : DynKey) : jsonKeyChars k ≠ [] := by
  unfold jsonKeyChars
  cases h : "\x7b\"shipmentId\":\"".data with
  | nil => exact absurd h (by decide)
  | cons c cs => simp [h]

/-- An encoded cursor is never the empty string, so the service's
truthiness test does not swallow it. -/
theorem encodeCursor_ne_empty (k : DynKey) : encodeCursor k ≠ "" := by
  have h1 : (jsonKeyChars k).map Char.toNat ≠ [] := by
    intro h
    exact jsonKeyChars_ne_nil k (List.map_eq_nil_iff.mp h)
  have h2 := b64encode_ne_nil _ h1
  intro h
  exact h2 (congrArg String.data h)

/-- C8: the pagination cursor round-trips.  The `nextKey` the service
returns is (by construction) the base64 encoding of the JSON encoding of
the store's `LastEvaluatedKey`; decoding an encoded cursor recovers the
original key; echoing an encoded cursor back verbatim as `startKey`
yields exactly that key as the next query's `ExclusiveStartKey`; and
whenever a query ends with `LastEvaluatedKey = k`, `getEventHistory`
reports `hasMore` with `nextKey = encodeCursor k`.  (Hypotheses: the key
attributes are ASCII and escape-free, as all store-produced shipment IDs
and uuids are.) -/
theorem c8_cursor_roundtrip (k : DynKey)
    (hsid : ∀ c ∈ k.shipmentId.data, c.toNat < 128 ∧ c ≠ '"' ∧ c ≠ '\\')
    (hid : ∀ c ∈ k.id.data, c.toNat < 128 ∧ c ≠ '"' ∧ c ≠ '\\') :
    encodeCursor k =
      String.mk (b64encode ((jsonKeyChars k).map Char.toNat)) ∧
    decodeCursor (encodeCursor k) = some k ∧
    exclusiveStartKeyOf (some (encodeCursor k)) = .ok (some k) ∧
    (∀ store sid limit,
      (dynQueryPage store sid limit none).2 = some k →
      getEventHistoryService store sid limit none =
        .ok (sortByLt (fun a b => a.timestamp < b.timestamp)
          (dynQueryPage store sid limit none).1, true,
          some (encodeCursor k))) := by
  refine ⟨rfl, decodeCursor_encodeCursor k hsid hid, ?_, ?_⟩
  · simp [exclusiveStartKeyOf, encodeCursor_ne_empty k,
      decodeCursor_encodeCursor k hsid hid]
  · intro store sid limit h
    simp [getEventHistoryService, exclusiveStartKeyOf, h]

/-- C8 witness: a concrete continuation key round-trips through the
cursor codec. -/
theorem c8_cursor_roundtrip_witness :
    decodeCursor (encodeCursor ⟨"SHIP-123456", "test-uuid-123"⟩) =
      some ⟨"SHIP-123456", "test-uuid-123"⟩ :=
  (c8_cursor_roundtrip ⟨"SHIP-123456", "test-uuid-123"⟩ (by decide)
    (by decide)).2.1
